import Mathlib

/-!
Verification of the "human inner movement theory" simulation programs
(phase1_minimal.py … phase5_consciousness.py).

Each Python program is shallowly embedded as a state structure together with a
step function.  Randomness is made explicit: the stimulus drawn by
`random.choice` and the values drawn by `random.uniform(0, 0.2)` are passed to
the step functions as parameters; run-level theorems quantify over the list of
drawn values (adding the range hypotheses `0 ≤ r ≤ 0.2` that the uniform draw
guarantees where they are needed).  Python floats are modelled as exact
rationals.  Reporting-only record fields (the printed qualia valuations of the
memory-free variants) are elided; every field that feeds back into the state or
into a claimed observable is kept.
-/

unseal Rat.add Rat.mul Rat.sub Rat.ofScientific Rat.inv

namespace HIMT

/-- THRESHOLD constant shared by all five variants (`self.THRESHOLD = 0.3`). -/
def THRESHOLD : ℚ := 0.3

/-- Consciousness classifier, the expression
`self.sync_score >= self.THRESHOLD and self.self_strength >= self.THRESHOLD`
shared verbatim by the five variants. -/
def isConsciousOf (sync self_strength : ℚ) : Bool :=
  decide (THRESHOLD ≤ sync ∧ THRESHOLD ≤ self_strength)

/-- Count of adjacent equal pairs, the loop
`sum(1 for i in range(len(xs)-1) if xs[i] == xs[i+1])`. -/
def adjacentMatches : List String → ℕ
  | a :: b :: rest => (if a = b then 1 else 0) + adjacentMatches (b :: rest)
  | _ => 0

/-- FIFO eviction after an append: `if len(xs) > cap: xs.pop(0)`. -/
def trimTo (cap : ℕ) (l : List String) : List String :=
  if cap < l.length then l.tail else l

/-- Python slice `xs[-10:] if len(xs) >= 10 else xs` (the recent-window read). -/
def lastTen (l : List String) : List String := l.drop (l.length - 10)

/-- Prediction convention of phases 1–3: the last element of the memory before
the current append (`self.recent_patterns[-1] if self.recent_patterns else None`). -/
def predictionBefore (mem : List String) : Option String := mem.getLast?

/-- Prediction error for the before-append convention:
`0.0 if prediction == stimulus else 1.0`, with `None` never equal to a stimulus. -/
def predErrorBefore (mem : List String) (stimulus : String) : ℚ :=
  if predictionBefore mem = some stimulus then 0 else 1

/-- Python index `xs[-2]` guarded by `len(xs) >= 2`, as an `Option`. -/
def secondToLast (l : List String) : Option String := l.dropLast.getLast?

/-- Prediction convention of phases 4–5: element at position -2 of the buffer
after the current append (`xs[-2] if len(xs) >= 2 else no prediction`). -/
def predictionAfter (memPost : List String) : Option String := secondToLast memPost

/-- Prediction error for the after-append convention: 1.0 when fewer than two
entries exist after the append, else compare `xs[-2]` with the stimulus. -/
def predErrorAfter (memPost : List String) (stimulus : String) : ℚ :=
  match predictionAfter memPost with
  | some p => if p = stimulus then 0 else 1
  | none => 1

/-- Sequential execution of steps: a run of n steps is n applications of the
step function (§5 of the spec). -/
def runSteps {σ ι : Type} (step : σ → ι → σ) : σ → List ι → σ
  | st, [] => st
  | st, i :: is => runSteps step (step st i) is

/-- State reached after the first n steps of a run. -/
def stateAt {σ ι : Type} (step : σ → ι → σ) (init : σ) (inputs : List ι) (n : ℕ) : σ :=
  runSteps step init (inputs.take n)

theorem runSteps_append {σ ι : Type} (step : σ → ι → σ) (st : σ) (l : List ι) (i : ι) :
    runSteps step st (l ++ [i]) = step (runSteps step st l) i := by
  induction l generalizing st with
  | nil => rfl
  | cons a l ih => simpa [runSteps] using ih (step st a)

theorem stateAt_succ {σ ι : Type} (step : σ → ι → σ) (init : σ) (inputs : List ι)
    (n : ℕ) (h : n < inputs.length) :
    stateAt step init inputs (n + 1) = step (stateAt step init inputs n) inputs[n] := by
  unfold stateAt
  rw [List.take_succ, List.getElem?_eq_getElem h, Option.toList_some, runSteps_append]

theorem stateAt_stable {σ ι : Type} (step : σ → ι → σ) (init : σ) (inputs : List ι)
    (n : ℕ) (h : inputs.length ≤ n) :
    stateAt step init inputs n = stateAt step init inputs inputs.length := by
  unfold stateAt
  rw [List.take_of_length_le h, List.take_of_length_le (Nat.le_refl _)]

theorem runSteps_inv {σ ι : Type} (step : σ → ι → σ) (P : σ → Prop)
    (l : List ι) (hstep : ∀ st i, i ∈ l → P st → P (step st i)) :
    ∀ st, P st → P (runSteps step st l) := by
  induction l with
  | nil => exact fun st h => h
  | cons a l ih =>
    intro st h
    exact ih (fun st i hi => hstep st i (List.mem_cons_of_mem a hi))
      (step st a) (hstep st a (List.mem_cons_self a l) h)

theorem stateAt_inv {σ ι : Type} (step : σ → ι → σ) (init : σ) (inputs : List ι)
    (P : σ → Prop) (hinit : P init)
    (hstep : ∀ st i, i ∈ inputs → P st → P (step st i)) (n : ℕ) :
    P (stateAt step init inputs n) :=
  runSteps_inv step P (inputs.take n)
    (fun st i hi => hstep st i (List.take_subset n inputs hi)) init hinit

/-! ### Phase 1: `MinimalConsciousness` (phase1_minimal.py) -/

/-- State of `MinimalConsciousness`: the instance fields mutated by
`process_step` (the static qualia tables are reporting-only and elided). -/
structure Phase1State where
  recent_patterns : List String
  prediction : Option String
  self_strength : ℚ
  sync_score : ℚ
  is_conscious : Bool
deriving DecidableEq

/-- Phase1State as built by `MinimalConsciousness.__init__`. -/
def phase1Init : Phase1State :=
  { recent_patterns := [], prediction := none, self_strength := 0,
    sync_score := 0, is_conscious := false }

/-- Step-result record returned by `MinimalConsciousness.process_step`
(reporting-only fields elided). -/
structure Phase1Result where
  prediction_error : ℚ
  self_strength : ℚ
  sync_score : ℚ
  is_conscious : Bool
deriving DecidableEq

/-- MinimalConsciousness.process_step: predict from pre-append memory, compute
the binary error, append and evict at capacity 10, accumulate self-strength
from adjacent repetitions (increment 0.01, cap 1.0), rescore sync, classify. -/
def phase1Step (st : Phase1State) (stimulus : String) (noise : ℚ) :
    Phase1State × Phase1Result :=
  let prediction := predictionBefore st.recent_patterns
  let prediction_error := predErrorBefore st.recent_patterns stimulus
  let recent := trimTo 10 (st.recent_patterns ++ [stimulus])
  let self1 :=
    if 2 ≤ recent.length then
      min (st.self_strength + 0.01 * (adjacentMatches recent : ℚ)) 1
    else st.self_strength
  let sync := prediction_error * 0.8 + noise
  let conscious := isConsciousOf sync self1
  (⟨recent, prediction, self1, sync, conscious⟩,
   ⟨prediction_error, self1, sync, conscious⟩)

/-- Phase-1 input: one stimulus draw and one `uniform(0, 0.2)` draw. -/
def phase1StepState (st : Phase1State) (i : String × ℚ) : Phase1State :=
  (phase1Step st i.1 i.2).1

/-- State of the phase-1 system after the first n steps of a run. -/
def phase1At (inputs : List (String × ℚ)) (n : ℕ) : Phase1State :=
  stateAt phase1StepState phase1Init inputs n

/-! ### Phase 2: `QualiaExpansionSystem` (phase2_qualia_expansion.py) -/

/-- State of `QualiaExpansionSystem`: same engine as phase 1 plus the one-shot
`consciousness_emerged_at` observation.  The randomly initialised 54-entry
qualia table is reporting-only and elided; the drawn stimulus is a parameter,
so the environment subsets only restrict which stimuli can be drawn. -/
structure Phase2State where
  recent_patterns : List String
  prediction : Option String
  self_strength : ℚ
  sync_score : ℚ
  is_conscious : Bool
  consciousness_emerged_at : Option ℕ
deriving DecidableEq

/-- Phase2State as built by `QualiaExpansionSystem.__init__`. -/
def phase2Init : Phase2State :=
  { recent_patterns := [], prediction := none, self_strength := 0,
    sync_score := 0, is_conscious := false, consciousness_emerged_at := none }

/-- QualiaExpansionSystem.process_step.  Note the tracking line: on the first
conscious step it records `len(self.recent_patterns)` — the length of the
capacity-10 buffer after the append — not a step counter. -/
def phase2Step (st : Phase2State) (stimulus : String) (noise : ℚ) : Phase2State :=
  let prediction := predictionBefore st.recent_patterns
  let prediction_error := predErrorBefore st.recent_patterns stimulus
  let recent := trimTo 10 (st.recent_patterns ++ [stimulus])
  let self1 :=
    if 2 ≤ recent.length then
      min (st.self_strength + 0.01 * (adjacentMatches recent : ℚ)) 1
    else st.self_strength
  let sync := prediction_error * 0.8 + noise
  let conscious := isConsciousOf sync self1
  let emerged :=
    if conscious = true ∧ st.consciousness_emerged_at = none then some recent.length
    else st.consciousness_emerged_at
  ⟨recent, prediction, self1, sync, conscious, emerged⟩

/-- Phase-2 step on a paired input. -/
def phase2StepState (st : Phase2State) (i : String × ℚ) : Phase2State :=
  phase2Step st i.1 i.2

/-- State of the phase-2 system after the first n steps of a run. -/
def phase2At (inputs : List (String × ℚ)) (n : ℕ) : Phase2State :=
  stateAt phase2StepState phase2Init inputs n

/-! ### Phase 3: `DNALearningSystem` (phase3_dna_and_learning.py) -/

/-- One entry of `self.mixed_states`: the dict
`{step, pain, pleasure, raw_dna}` appended on a mixed state. -/
structure MixedState where
  step : ℕ
  pain : ℚ
  pleasure : ℚ
  raw_dna : ℚ
deriving DecidableEq

/-- State of `DNALearningSystem`.  The DNA and learned tables are modelled as
total functions with the `dict.get(key, 0)` default built in; `__init__` sets
every learned adjustment to 0 and `process_step` never writes either table. -/
structure Phase3State where
  qualia_dna : String → ℚ
  qualia_learned : String → ℚ
  recent_patterns : List String
  self_strength : ℚ
  sync_score : ℚ
  is_conscious : Bool
  mixed_states : List MixedState

/-- Default DNA initial values of `DNALearningSystem.__init__`
(`pain: -0.9, warm: -0.2, sweet: +0.7, pleasure: +0.8`), with the
`dict.get(q, 0)` default for unknown tags. -/
def defaultDNA : String → ℚ := fun q =>
  if q = "pain" then -0.9
  else if q = "warm" then -0.2
  else if q = "sweet" then 0.7
  else if q = "pleasure" then 0.8
  else 0

/-- DNALearningSystem.__init__ with an optional custom DNA table. -/
def phase3Init (dna : String → ℚ) : Phase3State :=
  { qualia_dna := dna, qualia_learned := fun _ => 0, recent_patterns := [],
    self_strength := 0, sync_score := 0, is_conscious := false, mixed_states := [] }

/-- DNALearningSystem.get_effective_value: `dna.get(q, 0) + learned.get(q, 0)`. -/
def get_effective_value (st : Phase3State) (qualia_type : String) : ℚ :=
  st.qualia_dna qualia_type + st.qualia_learned qualia_type

/-- DNALearningSystem.normalize_value: clamp to [-1, 1] and return the clamp
overflow (`value - 1.0` above, `abs(value) - 1.0` below, else `0.0`). -/
def normalize_value (value : ℚ) : ℚ × ℚ :=
  if 1 < value then (1, value - 1)
  else if value < -1 then (-1, |value| - 1)
  else (value, 0)

/-- DNALearningSystem.process_step: the mixed-state check
(`stimulus == 'pain' and overflow > 0`, secondary valuation `overflow * 0.8`)
followed by the shared prediction/memory/self-strength/sync/consciousness
pipeline with capacity 10 and increment 0.01. -/
def phase3Step (st : Phase3State) (stimulus : String) (noise : ℚ) : Phase3State :=
  let raw_value := get_effective_value st stimulus
  let nv := normalize_value raw_value
  let mixed :=
    if stimulus = "pain" ∧ 0 < nv.2 then
      st.mixed_states ++
        [{ step := st.recent_patterns.length + 1, pain := nv.1,
           pleasure := nv.2 * 0.8, raw_dna := raw_value }]
    else st.mixed_states
  let prediction_error := predErrorBefore st.recent_patterns stimulus
  let recent := trimTo 10 (st.recent_patterns ++ [stimulus])
  let self1 :=
    if 2 ≤ recent.length then
      min (st.self_strength + 0.01 * (adjacentMatches recent : ℚ)) 1
    else st.self_strength
  let sync := prediction_error * 0.8 + noise
  { qualia_dna := st.qualia_dna, qualia_learned := st.qualia_learned,
    recent_patterns := recent, self_strength := self1, sync_score := sync,
    is_conscious := isConsciousOf sync self1, mixed_states := mixed }

/-- Phase-3 step on a paired input. -/
def phase3StepState (st : Phase3State) (i : String × ℚ) : Phase3State :=
  phase3Step st i.1 i.2

/-- State of the phase-3 system after a whole run from a given DNA table. -/
def phase3Run (dna : String → ℚ) (inputs : List (String × ℚ)) : Phase3State :=
  runSteps phase3StepState (phase3Init dna) inputs

/-! ### Phase 4: `MemorySelfSystem` (phase4_memory_and_self.py) -/

/-- One phase-4 input: the stimulus draw plus the two possible
`random.uniform(0, 0.2)` draws of a step (the self-strength substitution noise,
consumed only in the no-pattern branch, and the sync jitter). -/
structure Phase4Input where
  stimulus : String
  selfNoise : ℚ
  syncNoise : ℚ
deriving DecidableEq

/-- State of `MemorySelfSystem`.  `memory` is `none` exactly when the system
was constructed with `has_memory=False` (a structurally absent store, distinct
from an empty buffer). -/
structure Phase4State where
  has_memory : Bool
  memory : Option (List String)
  self_strength : ℚ
  sync_score : ℚ
  is_conscious : Bool
  language_acquired : Bool
  can_report_feelings : Bool
  recent_stimuli : List String
deriving DecidableEq

/-- MemorySelfSystem.__init__(has_memory). -/
def phase4Init (has_memory : Bool) : Phase4State :=
  { has_memory := has_memory, memory := if has_memory then some [] else none,
    self_strength := 0, sync_score := 0, is_conscious := false,
    language_acquired := false, can_report_feelings := false, recent_stimuli := [] }

/-- Long-term memory capacity of phase 4 (`self.memory_capacity = 100`). -/
def memory_capacity : ℕ := 100

/-- Long-term memory update of `process_step`: append and evict at capacity
when memory exists, no-op when the store is absent. -/
def phase4MemUpdate (st : Phase4State) (stimulus : String) : Option (List String) :=
  if st.has_memory then some (trimTo memory_capacity ((st.memory.getD []) ++ [stimulus]))
  else st.memory

/-- Step-result record of `MemorySelfSystem.process_step`. -/
structure Phase4Result where
  stimulus : String
  self_strength : ℚ
  pattern_matches : ℕ
  is_conscious : Bool
  language_acquired : Bool
deriving DecidableEq

/-- MemorySelfSystem.process_step: short-term buffer (capacity 10), long-term
memory (capacity 100, optional), pattern-based self-strength (increment 0.001,
cap 1.0) with the random substitution `uniform(0, 0.2)` when memory is absent
or holds fewer than two entries, after-append prediction (`recent_stimuli[-2]`),
sync, consciousness, and the one-shot language-acquisition latch. -/
def phase4Step (st : Phase4State) (i : Phase4Input) : Phase4State × Phase4Result :=
  let recent := trimTo 10 (st.recent_stimuli ++ [i.stimulus])
  let memory := phase4MemUpdate st i.stimulus
  let mem := memory.getD []
  let pattern_match_count :=
    if st.has_memory = true ∧ 2 ≤ mem.length then adjacentMatches (lastTen mem) else 0
  let self1 :=
    if st.has_memory = true ∧ 2 ≤ mem.length then
      min (st.self_strength + 0.001 * (pattern_match_count : ℚ)) 1
    else i.selfNoise
  let prediction_error := predErrorAfter recent i.stimulus
  let sync := prediction_error * 0.8 + i.syncNoise
  let conscious := isConsciousOf sync self1
  let lang :=
    if THRESHOLD ≤ self1 ∧ st.language_acquired = false then true
    else st.language_acquired
  let canReport :=
    if THRESHOLD ≤ self1 ∧ st.language_acquired = false then true
    else st.can_report_feelings
  (⟨st.has_memory, memory, self1, sync, conscious, lang, canReport, recent⟩,
   ⟨i.stimulus, self1, pattern_match_count, conscious, lang⟩)

/-- Phase-4 step, state part. -/
def phase4StepState (st : Phase4State) (i : Phase4Input) : Phase4State :=
  (phase4Step st i).1

/-- State of the phase-4 system after the first n steps of a run. -/
def phase4At (has_memory : Bool) (inputs : List Phase4Input) (n : ℕ) : Phase4State :=
  stateAt phase4StepState (phase4Init has_memory) inputs n

/-- MemorySelfSystem.report_feeling: a read-only query; before language
acquisition it returns the fixed cannot-report message, afterwards a
valuation-bucketed message.  It takes the state only as input and returns a
string, so no step or query ever resets the latch. -/
def report_feeling (st : Phase4State) (value : ℚ) (stimulus : String) : String :=
  if st.can_report_feelings = false then "[Cannot report - no language yet]"
  else if value < -0.5 then "I feel " ++ stimulus ++ " - it is PAINFUL"
  else if 0.5 < value then "I feel " ++ stimulus ++ " - it is PLEASANT"
  else "I feel " ++ stimulus ++ " - it is NEUTRAL"

/-! ### Phase 5: `ConsciousnessSystem` (phase5_consciousness.py) -/

/-- State of `ConsciousnessSystem`: memory (capacity 100), the two scalars with
their retained histories, and the statistics fields including the one-shot
`threshold_crossed_at` observation driven by a proper step counter. -/
structure Phase5State where
  memory : List String
  self_strength : ℚ
  self_strength_history : List ℚ
  sync_score : ℚ
  sync_history : List ℚ
  is_conscious : Bool
  consciousness_history : List ℕ
  step_count : ℕ
  consciousness_count : ℕ
  threshold_crossed_at : Option ℕ
deriving DecidableEq

/-- ConsciousnessSystem.__init__. -/
def phase5Init : Phase5State :=
  { memory := [], self_strength := 0, self_strength_history := [],
    sync_score := 0, sync_history := [], is_conscious := false,
    consciousness_history := [], step_count := 0, consciousness_count := 0,
    threshold_crossed_at := none }

/-- ConsciousnessSystem.process_step: increment the step counter, store the
stimulus (capacity 100), predict `memory[-2]` after the append, count adjacent
repetitions only once ten entries exist, increment self-strength by 0.001 per
match unconditionally (cap 1.0), rescore sync, classify, and record the step
count the first time `is_conscious` flips from false to true. -/
def phase5Step (st : Phase5State) (stimulus : String) (noise : ℚ) : Phase5State :=
  let step_count := st.step_count + 1
  let memory := trimTo 100 (st.memory ++ [stimulus])
  let prediction_error := predErrorAfter memory stimulus
  let pattern_matches :=
    if 10 ≤ memory.length then adjacentMatches (lastTen memory) else 0
  let self1 := min (st.self_strength + 0.001 * (pattern_matches : ℚ)) 1
  let sync := prediction_error * 0.8 + noise
  let was_conscious := st.is_conscious
  let conscious := isConsciousOf sync self1
  let crossed :=
    if conscious = true ∧ was_conscious = false ∧ st.threshold_crossed_at = none then
      some step_count
    else st.threshold_crossed_at
  { memory := memory, self_strength := self1,
    self_strength_history := st.self_strength_history ++ [self1],
    sync_score := sync, sync_history := st.sync_history ++ [sync],
    is_conscious := conscious,
    consciousness_history := st.consciousness_history ++ [if conscious then 1 else 0],
    step_count := step_count,
    consciousness_count :=
      if conscious then st.consciousness_count + 1 else st.consciousness_count,
    threshold_crossed_at := crossed }

/-- Phase-5 step on a paired input. -/
def phase5StepState (st : Phase5State) (i : String × ℚ) : Phase5State :=
  phase5Step st i.1 i.2

/-- State of the phase-5 system after the first n steps of a run. -/
def phase5At (inputs : List (String × ℚ)) (n : ℕ) : Phase5State :=
  stateAt phase5StepState phase5Init inputs n

/-! ### Phase 1 run entry point (for the validity-contract claim) -/

/-- Step-result records accumulated by the `for i in range(steps)` loop of
`MinimalConsciousness.run_experiment`. -/
def phase1RunResults : Phase1State → List (String × ℚ) → List Phase1Result
  | _, [] => []
  | st, i :: is => (phase1Step st i.1 i.2).2 :: phase1RunResults (phase1Step st i.1 i.2).1 is

/-- Count of conscious steps accumulated by the loop. -/
def consciousCount (rs : List Phase1Result) : ℕ :=
  (rs.filter (fun r => r.is_conscious)).length

/-- MinimalConsciousness.run_experiment(steps).  The loop `for i in
range(steps)` executes `max(steps, 0)` iterations, consuming one input per
iteration (the draw stream is passed explicitly and is assumed long enough for
positive counts).  There is no validation of `steps` anywhere; after the loop
the summary computes `consciousness_count / steps * 100`, which raises
ZeroDivisionError exactly when `steps = 0` — the printed text itself is
reporting and elided. -/
def run_experiment (steps : ℤ) (draws : List (String × ℚ)) :
    Except String (List Phase1Result × Phase1State × ℚ) :=
  let inputs := draws.take steps.toNat
  let results := phase1RunResults phase1Init inputs
  let finalState := runSteps phase1StepState phase1Init inputs
  if steps = 0 then Except.error "ZeroDivisionError"
  else Except.ok (results, finalState, (consciousCount results : ℚ) / (steps : ℚ) * 100)

/-! ### Helper lemmas about the two prediction conventions -/

theorem predErrorAfter_eq (m : List String) (s : String) :
    predErrorAfter m s = if predictionAfter m = some s then 0 else 1 := by
  cases h : predictionAfter m <;> simp [predErrorAfter, h]

theorem predictionAfter_trim (cap : ℕ) (hcap : 2 ≤ cap) (l : List String) (s : String) :
    predictionAfter (trimTo cap (l ++ [s])) = predictionBefore l := by
  unfold trimTo
  by_cases h : cap < (l ++ [s]).length
  · simp only [h, if_true]
    cases l with
    | nil => simp at h; omega
    | cons a t =>
      have ht : t ≠ [] := by
        intro he
        subst he
        simp at h
        omega
      cases t with
      | nil => exact absurd rfl ht
      | cons b u =>
        show predictionAfter ((b :: u) ++ [s]) = predictionBefore (a :: b :: u)
        unfold predictionAfter secondToLast predictionBefore
        rw [List.dropLast_concat, List.getLast?_cons_cons]
  · simp only [h, if_false]
    simp [predictionAfter, secondToLast, predictionBefore]

theorem predErrorAfter_trim (cap : ℕ) (hcap : 2 ≤ cap) (l : List String) (s : String) :
    predErrorAfter (trimTo cap (l ++ [s])) s = predErrorBefore l s := by
  rw [predErrorAfter_eq, predictionAfter_trim cap hcap, predErrorBefore]

/-! ### Claim theorems -/

/-- C1: at every step of every variant, `is_conscious` is the pure threshold
classifier of the two current scalars — true exactly when both `sync_score` and
`self_strength` are at least THRESHOLD = 0.3; in particular the classifier maps
(0.35, 0.31) to true and (0.29, 0.9) to false. -/
theorem consciousness_is_pure_threshold_classifier :
    (∀ a b : ℚ, isConsciousOf a b = true ↔ THRESHOLD ≤ a ∧ THRESHOLD ≤ b)
    ∧ (∀ st s n, (phase1StepState st (s, n)).is_conscious
        = isConsciousOf (phase1StepState st (s, n)).sync_score
            (phase1StepState st (s, n)).self_strength)
    ∧ (∀ st s n, (phase2Step st s n).is_conscious
        = isConsciousOf (phase2Step st s n).sync_score (phase2Step st s n).self_strength)
    ∧ (∀ st s n, (phase3Step st s n).is_conscious
        = isConsciousOf (phase3Step st s n).sync_score (phase3Step st s n).self_strength)
    ∧ (∀ st i, (phase4StepState st i).is_conscious
        = isConsciousOf (phase4StepState st i).sync_score (phase4StepState st i).self_strength)
    ∧ (∀ st s n, (phase5Step st s n).is_conscious
        = isConsciousOf (phase5Step st s n).sync_score (phase5Step st s n).self_strength)
    ∧ isConsciousOf 0.35 0.31 = true ∧ isConsciousOf 0.29 0.9 = false := by
  exact ⟨fun a b => decide_eq_true_iff, fun _ _ _ => rfl, fun _ _ _ => rfl,
    fun _ _ _ => rfl, fun _ _ => rfl, fun _ _ _ => rfl, by decide, by decide⟩

/-- C6: in every variant the prediction error of a step is exactly 0 when the
realized stimulus equals the most recently observed stimulus (the last element
of the relevant buffer before the current append) and exactly 1 otherwise, and
it is 1 when no prior history exists; in phases 2–5 the error enters the state
through `sync_score = error * 0.8 + noise`. -/
theorem prediction_error_binary_last_observed :
    (∀ (mem : List String) (s : String),
      predErrorBefore mem s = if mem.getLast? = some s then 0 else 1)
    ∧ (∀ s : String, predErrorBefore [] s = 1)
    ∧ (∀ st s n, (phase1Step st s n).2.prediction_error = predErrorBefore st.recent_patterns s)
    ∧ (∀ st s n, (phase2Step st s n).sync_score
        = predErrorBefore st.recent_patterns s * 0.8 + n)
    ∧ (∀ st s n, (phase3Step st s n).sync_score
        = predErrorBefore st.recent_patterns s * 0.8 + n)
    ∧ (∀ st i, (phase4StepState st i).sync_score
        = predErrorBefore st.recent_stimuli i.stimulus * 0.8 + i.syncNoise)
    ∧ (∀ st s n, (phase5Step st s n).sync_score = predErrorBefore st.memory s * 0.8 + n) := by
  refine ⟨fun mem s => rfl, fun s => rfl, fun _ _ _ => rfl, fun _ _ _ => rfl,
    fun _ _ _ => rfl, fun st i => ?_, fun st s n => ?_⟩
  · show predErrorAfter (trimTo 10 (st.recent_stimuli ++ [i.stimulus])) i.stimulus * 0.8
        + i.syncNoise = _
    rw [predErrorAfter_trim 10 (by norm_num)]
  · show predErrorAfter (trimTo 100 (st.memory ++ [s])) s * 0.8 + n = _
    rw [predErrorAfter_trim 100 (by norm_num)]

/-- C8 counterexample: at the transition from empty memory to length 1 the two
conventions do NOT differ — for every stimulus, the before-append convention on
the empty buffer and the after-append convention on the resulting length-1
buffer produce the same (absent) prediction and the same prediction error. -/
theorem prediction_conventions_no_difference_at_first_step :
    ¬ ∃ s : String,
      predErrorAfter (trimTo 10 ([] ++ [s])) s ≠ predErrorBefore [] s
      ∨ predictionAfter (trimTo 10 ([] ++ [s])) ≠ predictionBefore [] := by
  rintro ⟨s, h | h⟩
  · exact h rfl
  · exact h rfl

/-- C8 (amended): the two prediction conventions used across the variants are
equivalent: for every buffer and stimulus, at both capacities in use (10 and
100), the element at position -2 after the append equals the last element
before the append, and the two prediction errors coincide — in particular they
agree on a buffer that just transitioned from empty to length 1. -/
theorem prediction_conventions_equivalent :
    ∀ (l : List String) (s : String),
      predictionAfter (trimTo 10 (l ++ [s])) = predictionBefore l
      ∧ predErrorAfter (trimTo 10 (l ++ [s])) s = predErrorBefore l s
      ∧ predictionAfter (trimTo 100 (l ++ [s])) = predictionBefore l
      ∧ predErrorAfter (trimTo 100 (l ++ [s])) s = predErrorBefore l s := by
  intro l s
  exact ⟨predictionAfter_trim 10 (by norm_num) l s, predErrorAfter_trim 10 (by norm_num) l s,
    predictionAfter_trim 100 (by norm_num) l s, predErrorAfter_trim 100 (by norm_num) l s⟩

/-! ### Step-projection lemmas (definitional re-statements used by the proofs) -/

theorem phase3Step_mixed_states (st : Phase3State) (s : String) (n : ℚ) :
    (phase3Step st s n).mixed_states =
      if s = "pain" ∧ 0 < (normalize_value (get_effective_value st s)).2 then
        st.mixed_states ++
          [{ step := st.recent_patterns.length + 1,
             pain := (normalize_value (get_effective_value st s)).1,
             pleasure := (normalize_value (get_effective_value st s)).2 * 0.8,
             raw_dna := get_effective_value st s }]
      else st.mixed_states := rfl

theorem phase1Step_self (st : Phase1State) (s : String) (n : ℚ) :
    (phase1StepState st (s, n)).self_strength =
      if 2 ≤ (trimTo 10 (st.recent_patterns ++ [s])).length then
        min (st.self_strength
          + 0.01 * (adjacentMatches (trimTo 10 (st.recent_patterns ++ [s])) : ℚ)) 1
      else st.self_strength := rfl

theorem phase4Step_self (st : Phase4State) (i : Phase4Input) :
    (phase4StepState st i).self_strength =
      if st.has_memory = true ∧ 2 ≤ ((phase4MemUpdate st i.stimulus).getD []).length then
        min (st.self_strength
          + 0.001 * ((if st.has_memory = true
                ∧ 2 ≤ ((phase4MemUpdate st i.stimulus).getD []).length then
              adjacentMatches (lastTen ((phase4MemUpdate st i.stimulus).getD [])) else 0 : ℕ) : ℚ)) 1
      else i.selfNoise := rfl

theorem phase4Step_language (st : Phase4State) (i : Phase4Input) :
    (phase4StepState st i).language_acquired =
      if THRESHOLD ≤ (phase4StepState st i).self_strength ∧ st.language_acquired = false then
        true
      else st.language_acquired := rfl

theorem phase4Step_has_memory (st : Phase4State) (i : Phase4Input) :
    (phase4StepState st i).has_memory = st.has_memory := rfl

theorem phase4Step_memory (st : Phase4State) (i : Phase4Input) :
    (phase4StepState st i).memory = phase4MemUpdate st i.stimulus := rfl

/-! ### Buffer-length helper lemmas -/

theorem trimTo_append_ne_nil (cap : ℕ) (hcap : 1 ≤ cap) (l : List String) (s : String) :
    trimTo cap (l ++ [s]) ≠ [] := by
  unfold trimTo
  split
  · next h =>
    cases l with
    | nil => simp at h; omega
    | cons a t => simp
  · simp

theorem two_le_trimTo_length (cap : ℕ) (hcap : 2 ≤ cap) (l : List String) (s : String)
    (hl : l ≠ []) : 2 ≤ (trimTo cap (l ++ [s])).length := by
  unfold trimTo
  split
  · next h =>
    cases l with
    | nil => exact absurd rfl hl
    | cons a t =>
      simp only [List.cons_append, List.tail_cons, List.length_append, List.length_cons] at h ⊢
      omega
  · next h =>
    simp only [List.length_append, List.length_cons] at h ⊢
    have : 1 ≤ l.length := List.length_pos.mpr hl
    omega

/-! ### Trace combinators: invariants and monotone quantities along a run -/

theorem stateAt_mono {σ ι : Type} (step : σ → ι → σ) (init : σ) (inputs : List ι)
    (f : σ → ℚ) (P : σ → Prop) (hinit : P init)
    (h : ∀ st i, i ∈ inputs → P st → P (step st i) ∧ f st ≤ f (step st i)) :
    (∀ n, P (stateAt step init inputs n))
    ∧ ∀ n, f (stateAt step init inputs n) ≤ f (stateAt step init inputs (n + 1)) := by
  have hinv : ∀ n, P (stateAt step init inputs n) :=
    stateAt_inv step init inputs P hinit (fun st i hi hp => (h st i hi hp).1)
  refine ⟨hinv, fun n => ?_⟩
  by_cases hn : n < inputs.length
  · rw [stateAt_succ step init inputs n hn]
    exact (h _ _ (List.getElem_mem hn) (hinv n)).2
  · have h1 : inputs.length ≤ n := Nat.le_of_not_lt hn
    rw [stateAt_stable step init inputs n h1,
      stateAt_stable step init inputs (n + 1) (Nat.le_succ_of_le h1)]

/-- C4: in the DNA variant a MixedStateEvent is appended at a step exactly when
the drawn stimulus is the aversive tag "pain" and the overflow of the clamped
effective valuation is strictly positive; the appended event's secondary
valuation is `overflow * 0.8`; and with the default DNA (pain = -0.9) and the
zero-initialised learned adjustments, a run of any length produces no
MixedStateEvent at all. -/
theorem mixed_state_rule :
    (∀ st s n, (phase3Step st s n).mixed_states ≠ st.mixed_states
        ↔ s = "pain" ∧ 0 < (normalize_value (get_effective_value st s)).2)
    ∧ (∀ st s n, (phase3Step st s n).mixed_states =
        if s = "pain" ∧ 0 < (normalize_value (get_effective_value st s)).2 then
          st.mixed_states ++
            [{ step := st.recent_patterns.length + 1,
               pain := (normalize_value (get_effective_value st s)).1,
               pleasure := (normalize_value (get_effective_value st s)).2 * 0.8,
               raw_dna := get_effective_value st s }]
        else st.mixed_states)
    ∧ ∀ inputs : List (String × ℚ), (phase3Run defaultDNA inputs).mixed_states = [] := by
  refine ⟨fun st s n => ?_, phase3Step_mixed_states, fun inputs => ?_⟩
  · rw [phase3Step_mixed_states]
    by_cases hc : s = "pain" ∧ 0 < (normalize_value (get_effective_value st s)).2
    · rw [if_pos hc]
      refine iff_of_true ?_ hc
      intro hEq
      have := congrArg List.length hEq
      simp at this
    · rw [if_neg hc]
      exact iff_of_false (fun h => h rfl) hc
  · have hrun := runSteps_inv phase3StepState
      (fun st => st.qualia_dna = defaultDNA ∧ st.qualia_learned = (fun _ => 0)
        ∧ st.mixed_states = []) inputs ?_ (phase3Init defaultDNA) ⟨rfl, rfl, rfl⟩
    · exact hrun.2.2
    · rintro st i _ ⟨hdna, hlearn, hmix⟩
      refine ⟨hdna, hlearn, ?_⟩
      show (phase3Step st i.1 i.2).mixed_states = []
      rw [phase3Step_mixed_states, hmix]
      by_cases hs : i.1 = "pain"
      · have hv : get_effective_value st i.1 = -0.9 := by
          rw [get_effective_value, hdna, hlearn, hs]
          norm_num [defaultDNA]
        have hnv : normalize_value (-0.9 : ℚ) = (-0.9, 0) := by
          rw [normalize_value]
          norm_num
        rw [hv, hnv]
        norm_num
      · simp [hs]

theorem phase1Step_self_mono (st : Phase1State) (i : String × ℚ)
    (h1 : st.self_strength ≤ 1) :
    st.self_strength ≤ (phase1StepState st i).self_strength
    ∧ (phase1StepState st i).self_strength ≤ 1 := by
  obtain ⟨s, n⟩ := i
  rw [phase1Step_self]
  split
  · exact ⟨le_min (le_add_of_nonneg_right (by positivity)) h1, min_le_right _ _⟩
  · exact ⟨le_refl _, h1⟩

theorem phase4Step_self_mono (st : Phase4State) (i : Phase4Input)
    (hni : 0 ≤ i.selfNoise ∧ i.selfNoise ≤ 0.2)
    (hP : st.has_memory = true ∧ st.self_strength ≤ 1
      ∧ ∃ m, st.memory = some m ∧ (m = [] → st.self_strength = 0)) :
    ((phase4StepState st i).has_memory = true
      ∧ (phase4StepState st i).self_strength ≤ 1
      ∧ ∃ m, (phase4StepState st i).memory = some m
          ∧ (m = [] → (phase4StepState st i).self_strength = 0))
    ∧ st.self_strength ≤ (phase4StepState st i).self_strength := by
  obtain ⟨hm, h1, m, hmem, hm0⟩ := hP
  have hupd : phase4MemUpdate st i.stimulus
      = some (trimTo memory_capacity (m ++ [i.stimulus])) := by
    rw [phase4MemUpdate, hm, hmem]
    simp
  have hgetD : (phase4MemUpdate st i.stimulus).getD []
      = trimTo memory_capacity (m ++ [i.stimulus]) := by
    rw [hupd]
    rfl
  have hne : trimTo memory_capacity (m ++ [i.stimulus]) ≠ [] :=
    trimTo_append_ne_nil memory_capacity (by norm_num [memory_capacity]) m i.stimulus
  rw [phase4Step_has_memory, phase4Step_memory, phase4Step_self, hgetD, hupd]
  by_cases hme : m = []
  · subst hme
    have hlen : (trimTo memory_capacity ([] ++ [i.stimulus])).length = 1 := by
      norm_num [trimTo, memory_capacity]
    rw [if_neg (by rw [hlen]; omega)]
    refine ⟨⟨hm, le_trans hni.2 (by norm_num), _, rfl, fun h => absurd h hne⟩, ?_⟩
    rw [hm0 rfl]
    exact hni.1
  · have hlen : 2 ≤ (trimTo memory_capacity (m ++ [i.stimulus])).length :=
      two_le_trimTo_length memory_capacity (by norm_num [memory_capacity]) m i.stimulus hme
    rw [if_pos ⟨hm, hlen⟩]
    exact ⟨⟨hm, min_le_right _ _, _, rfl, fun h => absurd h hne⟩,
      le_min (le_add_of_nonneg_right (by positivity)) h1⟩

/-- C2: for every run with memory enabled — the phase-1 system, and the phase-4
system constructed with has_memory=True under the guarantee that every
substitution draw lies in [0, 0.2] — self_strength is non-decreasing from each
step to the next and never exceeds 1.0. -/
theorem self_strength_monotone_with_memory :
    (∀ (inputs : List (String × ℚ)) (n : ℕ),
      (phase1At inputs n).self_strength ≤ (phase1At inputs (n + 1)).self_strength
      ∧ (phase1At inputs n).self_strength ≤ 1)
    ∧ ∀ inputs : List Phase4Input,
        (∀ i ∈ inputs, 0 ≤ i.selfNoise ∧ i.selfNoise ≤ 0.2) →
        ∀ n : ℕ,
          (phase4At true inputs n).self_strength ≤ (phase4At true inputs (n + 1)).self_strength
          ∧ (phase4At true inputs n).self_strength ≤ 1 := by
  constructor
  · intro inputs n
    have h := stateAt_mono phase1StepState phase1Init inputs
      (fun st => st.self_strength) (fun st => st.self_strength ≤ 1)
      (show (0 : ℚ) ≤ 1 by norm_num)
      (fun st i _ hp => ⟨(phase1Step_self_mono st i hp).2, (phase1Step_self_mono st i hp).1⟩)
    exact ⟨h.2 n, h.1 n⟩
  · intro inputs hni n
    have h := stateAt_mono phase4StepState (phase4Init true) inputs
      (fun st => st.self_strength)
      (fun st => st.has_memory = true ∧ st.self_strength ≤ 1
        ∧ ∃ m, st.memory = some m ∧ (m = [] → st.self_strength = 0))
      ⟨rfl, show (0 : ℚ) ≤ 1 by norm_num, [], rfl, fun _ => rfl⟩
      (fun st i hi hp => phase4Step_self_mono st i (hni i hi) hp)
    exact ⟨h.2 n, (h.1 n).2.1⟩

/-- C2 witness: the monotonicity and cap theorem applied to concrete one-step
runs of both memory-enabled systems, with the draw-range hypothesis discharged
on a concrete input list. -/
theorem self_strength_monotone_with_memory_witness :
    ((phase1At [("a", 0.1)] 0).self_strength ≤ (phase1At [("a", 0.1)] 1).self_strength
      ∧ (phase1At [("a", 0.1)] 0).self_strength ≤ 1)
    ∧ (∀ i ∈ [(⟨"a", 0.1, 0.1⟩ : Phase4Input)], 0 ≤ i.selfNoise ∧ i.selfNoise ≤ 0.2)
    ∧ ((phase4At true [⟨"a", 0.1, 0.1⟩] 0).self_strength
        ≤ (phase4At true [⟨"a", 0.1, 0.1⟩] 1).self_strength
      ∧ (phase4At true [⟨"a", 0.1, 0.1⟩] 0).self_strength ≤ 1) :=
  ⟨self_strength_monotone_with_memory.1 [("a", 0.1)] 0,
   by decide,
   self_strength_monotone_with_memory.2 [⟨"a", 0.1, 0.1⟩] (by decide) 0⟩

theorem phase4Step_no_memory_self (st : Phase4State) (i : Phase4Input)
    (hm : st.has_memory = false) :
    (phase4StepState st i).self_strength = i.selfNoise := by
  rw [phase4Step_self, if_neg]
  rintro ⟨h, _⟩
  rw [hm] at h
  exact Bool.false_ne_true h

/-- C3: in the phase-4 system constructed with has_memory=False, under the
guarantee that every substitution draw lies in [0, 0.2], self_strength stays
strictly below THRESHOLD = 0.3 at every step of every run, language_acquired
stays false for the whole run, and each step reassigns self_strength to that
step's fresh draw. -/
theorem no_memory_never_reaches_threshold :
    ∀ inputs : List Phase4Input,
      (∀ i ∈ inputs, 0 ≤ i.selfNoise ∧ i.selfNoise ≤ 0.2) →
      (∀ n : ℕ, (phase4At false inputs n).self_strength < THRESHOLD
        ∧ (phase4At false inputs n).language_acquired = false)
      ∧ ∀ (n : ℕ) (h : n < inputs.length),
          (phase4At false inputs (n + 1)).self_strength = inputs[n].selfNoise := by
  intro inputs hni
  have hinv : ∀ n, (phase4At false inputs n).has_memory = false
      ∧ (phase4At false inputs n).self_strength < THRESHOLD
      ∧ (phase4At false inputs n).language_acquired = false := by
    intro n
    refine stateAt_inv phase4StepState (phase4Init false) inputs
      (fun st => st.has_memory = false ∧ st.self_strength < THRESHOLD
        ∧ st.language_acquired = false) ?_ ?_ n
    · exact ⟨rfl, show (0 : ℚ) < THRESHOLD by norm_num [THRESHOLD], rfl⟩
    · rintro st i hi ⟨hm, _, hl⟩
      have hself : (phase4StepState st i).self_strength = i.selfNoise :=
        phase4Step_no_memory_self st i hm
      have hlt : (phase4StepState st i).self_strength < THRESHOLD := by
        rw [hself]
        exact lt_of_le_of_lt (hni i hi).2 (by norm_num [THRESHOLD])
      refine ⟨by rw [phase4Step_has_memory]; exact hm, hlt, ?_⟩
      rw [phase4Step_language, if_neg, hl]
      rintro ⟨hth, _⟩
      exact absurd hth (not_le_of_lt hlt)
  refine ⟨fun n => ⟨(hinv n).2.1, (hinv n).2.2⟩, fun n h => ?_⟩
  have hsucc : phase4At false inputs (n + 1)
      = phase4StepState (phase4At false inputs n) inputs[n] :=
    stateAt_succ phase4StepState (phase4Init false) inputs n h
  rw [hsucc, phase4Step_no_memory_self _ _ (hinv n).1]

/-- C3 witness: the theorem applied to a concrete one-step memory-disabled run
with draw 0.1: self_strength stays below THRESHOLD, language stays false, and
step 1 reassigns self_strength to the drawn value. -/
theorem no_memory_never_reaches_threshold_witness :
    (∀ i ∈ [(⟨"a", 0.1, 0.1⟩ : Phase4Input)], 0 ≤ i.selfNoise ∧ i.selfNoise ≤ 0.2)
    ∧ ((phase4At false [⟨"a", 0.1, 0.1⟩] 1).self_strength < THRESHOLD
      ∧ (phase4At false [⟨"a", 0.1, 0.1⟩] 1).language_acquired = false)
    ∧ (phase4At false [⟨"a", 0.1, 0.1⟩] 1).self_strength
        = (⟨"a", 0.1, 0.1⟩ : Phase4Input).selfNoise :=
  ⟨by decide,
   (no_memory_never_reaches_threshold [⟨"a", 0.1, 0.1⟩] (by decide)).1 1,
   (no_memory_never_reaches_threshold [⟨"a", 0.1, 0.1⟩] (by decide)).2 0 (by decide)⟩

/-- C10: in the phase-4 system with memory enabled, whenever the long-term
memory holds fewer than 2 entries at the point of the pattern check (after the
current append) — which happens at the very first step of every run — the step
reassigns self_strength to the fresh substitution draw instead of incrementing
it. -/
theorem short_memory_noise_substitution :
    (∀ (st : Phase4State) (i : Phase4Input), st.has_memory = true →
      ((phase4MemUpdate st i.stimulus).getD []).length < 2 →
      (phase4StepState st i).self_strength = i.selfNoise)
    ∧ ∀ i : Phase4Input, (phase4StepState (phase4Init true) i).self_strength = i.selfNoise := by
  have h1 : ∀ (st : Phase4State) (i : Phase4Input), st.has_memory = true →
      ((phase4MemUpdate st i.stimulus).getD []).length < 2 →
      (phase4StepState st i).self_strength = i.selfNoise := by
    intro st i hm hlen
    rw [phase4Step_self, if_neg]
    rintro ⟨_, h2⟩
    omega
  refine ⟨h1, fun i => h1 _ i rfl ?_⟩
  show ((phase4MemUpdate (phase4Init true) i.stimulus).getD []).length < 2
  simp [phase4MemUpdate, phase4Init, trimTo, memory_capacity]

/-- C10 witness: the first step of a concrete memory-enabled run, where the
post-append memory holds one entry and self_strength becomes the drawn 0.07. -/
theorem short_memory_noise_substitution_witness :
    (phase4Init true).has_memory = true
    ∧ ((phase4MemUpdate (phase4Init true) "a").getD []).length < 2
    ∧ (phase4StepState (phase4Init true) ⟨"a", 0.07, 0.1⟩).self_strength = 0.07 :=
  ⟨rfl, by decide,
   short_memory_noise_substitution.1 (phase4Init true) ⟨"a", 0.07, 0.1⟩ rfl (by decide)⟩

theorem phase4Step_language_iff (st : Phase4State) (i : Phase4Input) :
    (phase4StepState st i).language_acquired = true
      ↔ st.language_acquired = true
        ∨ THRESHOLD ≤ (phase4StepState st i).self_strength := by
  rw [phase4Step_language]
  cases hb : st.language_acquired
  · by_cases hth : THRESHOLD ≤ (phase4StepState st i).self_strength
    · simp [hth]
    · simp [hth]
  · simp

/-- C5: language_acquired is a one-shot latch: any step taken from a state
where it already holds keeps it true, and along every phase-4 run (with or
without memory) it is true after n steps exactly when some step up to n pushed
self_strength to THRESHOLD = 0.3 — so it flips false→true exactly at the first
step whose (post-update) self_strength reaches the threshold, and stays true at
every later step of the run. -/
theorem language_latch_once_and_permanent :
    (∀ (st : Phase4State) (i : Phase4Input),
      st.language_acquired = true → (phase4StepState st i).language_acquired = true)
    ∧ ∀ (hm : Bool) (inputs : List Phase4Input) (n : ℕ), n ≤ inputs.length →
        ((phase4At hm inputs n).language_acquired = true
          ↔ ∃ k, k ≤ n ∧ THRESHOLD ≤ (phase4At hm inputs k).self_strength) := by
  constructor
  · intro st i h
    exact (phase4Step_language_iff st i).mpr (Or.inl h)
  · intro hm inputs n
    induction n with
    | zero =>
      intro _
      have h0 : (phase4At hm inputs 0).language_acquired = false := rfl
      have hs0 : (phase4At hm inputs 0).self_strength = 0 := rfl
      rw [h0]
      constructor
      · intro h
        exact (Bool.false_ne_true h).elim
      · rintro ⟨k, hk, hth⟩
        have hk0 : k = 0 := Nat.le_zero.mp hk
        subst hk0
        rw [hs0] at hth
        exact absurd hth (by norm_num [THRESHOLD])
    | succ n ih =>
      intro hsn
      have hn : n < inputs.length := Nat.lt_of_succ_le hsn
      have hstep : phase4At hm inputs (n + 1)
          = phase4StepState (phase4At hm inputs n) inputs[n] :=
        stateAt_succ phase4StepState (phase4Init hm) inputs n hn
      rw [hstep, phase4Step_language_iff, ← hstep, ih (Nat.le_of_lt hn)]
      constructor
      · rintro (⟨k, hk, hth⟩ | hth)
        · exact ⟨k, Nat.le_succ_of_le hk, hth⟩
        · exact ⟨n + 1, le_refl _, hth⟩
      · rintro ⟨k, hk, hth⟩
        rcases (by omega : k ≤ n ∨ k = n + 1) with hk2 | hk2
        · exact Or.inl ⟨k, hk2, hth⟩
        · subst hk2
          exact Or.inr hth

/-- C5 witness: both parts of the latch theorem applied to concrete inputs —
the run-level characterisation on a one-step run whose substitution draw 0.5
reaches the threshold, and the persistence part on a state with the latch
already set. -/
theorem language_latch_once_and_permanent_witness :
    (1 ≤ ([(⟨"a", 0.5, 0.1⟩ : Phase4Input)] : List Phase4Input).length)
    ∧ ((phase4At false [⟨"a", 0.5, 0.1⟩] 1).language_acquired = true
        ↔ ∃ k, k ≤ 1 ∧ THRESHOLD ≤ (phase4At false [⟨"a", 0.5, 0.1⟩] k).self_strength)
    ∧ (phase4StepState { phase4Init true with language_acquired := true }
        ⟨"a", 0, 0⟩).language_acquired = true :=
  ⟨by decide,
   language_latch_once_and_permanent.2 false [⟨"a", 0.5, 0.1⟩] 1 (by decide),
   language_latch_once_and_permanent.1 _ _ rfl⟩

/-- Input sequence demonstrating the phase-2 emergence recording: ten draws of
the same stimulus build self_strength above the threshold while keeping sync
low (correct predictions), then a different stimulus produces a prediction
error and with it the first conscious step — step 11, one step after the
capacity-10 buffer filled. -/
def c7Inputs : List (String × ℚ) := List.replicate 10 ("a", 0.1) ++ [("b", 0.1)]

set_option maxRecDepth 4000 in
/-- C7 (evaluation at the failing run): on this 11-step phase-2 run,
is_conscious is false at steps 1–10 and flips to true for the first time at
step 11, yet the recorded consciousness_emerged_at is 10 — the length
`len(self.recent_patterns)` of the capacity-capped memory buffer — not the
index 11 of the first false→true flip that the code's own report prints it as
(and that the phase-5 variant records via its `step_count`). -/
theorem phase2_emergence_records_buffer_length_not_step :
    ((List.range 10).all fun k => !(phase2At c7Inputs (k + 1)).is_conscious) = true
    ∧ (phase2At c7Inputs 11).is_conscious = true
    ∧ (phase2At c7Inputs 11).consciousness_emerged_at = some 10 := by decide

/-- C9 counterexample: running the phase-1 experiment with the non-positive
step count -1 does not fail fast with a configuration error — it returns
normally, with an empty result list, the untouched initial state and a
consciousness-rate summary value of 0. -/
theorem run_experiment_accepts_nonpositive_steps :
    run_experiment (-1) [] = Except.ok ([], phase1Init, 0) := rfl

/-- C9 (amended): no fail-fast validation exists.  The vocabularies and memory
capacities of all variants are hardcoded non-empty/positive constants (an empty
vocabulary or non-positive capacity cannot even be configured), and the run
entry point accepts any step count without a configuration error: a
non-positive count executes zero steps and mutates no state, returning normally
for a negative count and failing only in the post-loop summary (division by
zero) for a zero count. -/
theorem run_experiment_no_fail_fast :
    ∀ (steps : ℤ) (draws : List (String × ℚ)), steps ≤ 0 →
      draws.take steps.toNat = []
      ∧ phase1RunResults phase1Init (draws.take steps.toNat) = []
      ∧ runSteps phase1StepState phase1Init (draws.take steps.toNat) = phase1Init
      ∧ (steps < 0 → run_experiment steps draws = Except.ok ([], phase1Init, 0))
      ∧ (steps = 0 → run_experiment steps draws = Except.error "ZeroDivisionError") := by
  intro steps draws hs
  have ht : steps.toNat = 0 := Int.toNat_of_nonpos hs
  have htake : draws.take steps.toNat = [] := by rw [ht]; rfl
  refine ⟨htake, by rw [htake]; rfl, by rw [htake]; rfl, ?_, ?_⟩
  · intro hneg
    have hne : ¬ steps = 0 := by omega
    show (if steps = 0 then Except.error "ZeroDivisionError"
      else Except.ok (phase1RunResults phase1Init (draws.take steps.toNat),
        runSteps phase1StepState phase1Init (draws.take steps.toNat),
        (consciousCount (phase1RunResults phase1Init (draws.take steps.toNat)) : ℚ)
          / (steps : ℚ) * 100)) = Except.ok ([], phase1Init, 0)
    rw [if_neg hne, htake]
    norm_num [consciousCount]
    refine ⟨rfl, rfl, Or.inl ?_⟩
    intro a ha
    simp only [phase1RunResults] at ha
    exact absurd ha (List.not_mem_nil a)
  · intro h0
    subst h0
    rfl

/-- C9 witness: the amended theorem applied at the concrete step count 0 with a
non-empty draw list. -/
theorem run_experiment_no_fail_fast_witness :
    ((0 : ℤ) ≤ 0)
    ∧ ([("a", (0.5 : ℚ))].take (0 : ℤ).toNat = []
      ∧ phase1RunResults phase1Init ([("a", (0.5 : ℚ))].take (0 : ℤ).toNat) = []
      ∧ runSteps phase1StepState phase1Init ([("a", (0.5 : ℚ))].take (0 : ℤ).toNat)
          = phase1Init
      ∧ ((0 : ℤ) < 0 → run_experiment 0 [("a", (0.5 : ℚ))] = Except.ok ([], phase1Init, 0))
      ∧ ((0 : ℤ) = 0 → run_experiment 0 [("a", (0.5 : ℚ))]
          = Except.error "ZeroDivisionError")) :=
  ⟨le_refl 0, run_experiment_no_fail_fast 0 [("a", 0.5)] (le_refl 0)⟩

end HIMT
